import Mathlib

/-!
# Verification of the one-shot channel in `src/lib.rs`

The repository implements a single-message, single-use cross-thread handoff
primitive (a "one-shot channel") in the typestate-with-parking style:

* `Channel<T>` holds an `UnsafeCell<MaybeUninit<T>>` message slot and an
  `AtomicBool` readiness flag.
* `Channel::split(&mut self)` resets the channel via `*self = Self::new()`
  and returns a `Sender` (recording `thread::current()` as the thread to
  unpark) and a `Receiver` (carrying `PhantomData<*const ()>` so that it is
  not `Send`).
* `Sender::send(self, msg)` writes the message, stores `true` into the
  readiness flag with `Release` ordering, and unparks the waiting thread.
* `Receiver::recv(self)` loops: `swap(false, Acquire)` on the readiness flag;
  while it observes `false` it calls `thread::park()` and retries; once it
  observes `true` it moves the message out with `assume_init_read`.
* `impl Drop for Channel` drops the message in place iff the readiness flag
  is set.

We embed the data model shallowly (the `MaybeUninit` slot becomes an
`Option`, the atomic flag a `Bool`) and model the concurrent execution of
one `send` against one `recv` as a small-step system over explicit program
counters, with every shared-memory access and every park/unpark call as one
atomic step that also appends a labelled event to a log.  All theorems
quantify over every interleaving (every schedule).
-/

namespace OneShot

/-- Atomic memory orderings appearing in the source
(`Ordering::Release`, `Ordering::Acquire`, `Ordering::Relaxed`). -/
inductive MemOrder : Type
  | relaxed
  | acquire
  | release
  deriving DecidableEq, Repr

/-- `Channel<T>`: `message: UnsafeCell<MaybeUninit<T>>` is modelled as an
`Option T` (`none` = uninitialized) and `ready: AtomicBool` as a `Bool`. -/
structure Channel (T : Type) where
  message : Option T
  ready : Bool
  deriving DecidableEq, Repr

/-- `Channel::new()`: uninitialized slot, readiness flag `false`. -/
def Channel.new (T : Type) : Channel T :=
  { message := none, ready := false }

/-- Thread handles (`std::thread::Thread`) are identified by a number. -/
abbrev ThreadId := Nat

/-- References `&'a Channel<T>` are modelled as locations into a heap. -/
abbrev ChanRef := Nat

/-- The memory holding channels, so that handle aliasing is expressible. -/
abbrev Heap (T : Type) := ChanRef → Channel T

/-- Update one location of a heap. -/
def updateHeap {T : Type} (h : Heap T) (r : ChanRef) (c : Channel T) : Heap T :=
  fun x => if x = r then c else h x

/-- `Sender<'a, T>`: a reference to the channel plus the `waiting: Thread`
handle recorded at split time. -/
structure Sender (T : Type) where
  inner : ChanRef
  waiting : ThreadId
  deriving DecidableEq, Repr

/-- `Receiver<'a, T>`: a reference to the channel.  The
`_marker: PhantomData<*const ()>` field is type-level only; its effect on
the `Send` auto-trait is modelled separately (`receiverIsSend`). -/
structure Receiver (T : Type) where
  inner : ChanRef
  deriving DecidableEq, Repr

/-- `impl Drop for Channel`: `if *self.ready.get_mut() { assume_init_drop }`.
Returns the list of values destructed; the result is `none` when the code
would call `assume_init_drop` on an uninitialized slot (UB, unreachable
under the channel invariant that `ready` implies written). -/
def Channel.dropRun {T : Type} (c : Channel T) : Option (List T) :=
  if c.ready then c.message.map (fun v => [v]) else some []

/-- `Channel::split(&mut self)`: `*self = Self::new()` (which runs the old
value's `Drop`), then returns the `Sender` — recording `thread::current()`
in `waiting` — and the `Receiver`, both borrowing `self`.  The fourth
component is the list of values destructed by the reset assignment. -/
def Channel.split {T : Type} (h : Heap T) (r : ChanRef) (current : ThreadId) :
    Heap T × Sender T × Receiver T × Option (List T) :=
  (updateHeap h r (Channel.new T),
   { inner := r, waiting := current },
   { inner := r },
   (h r).dropRun)

/-!
## The Rust `Send` auto-trait on the handle types

`Receiver` contains `PhantomData<*const ()>`; raw pointers are not `Send`,
`PhantomData<U>` is `Send` iff `U` is, and a struct is `Send` iff all its
fields are.  `&Channel<T>` is `Send` (for `T : Send`) because of the
`unsafe impl<T> Sync for Channel<T>` in the source; `std::thread::Thread`
is `Send`.
-/

/-- The field types occurring in `Sender` and `Receiver`. -/
inductive RustTy : Type
  | constPtrUnit
  | refChannel
  | threadHandle
  | phantomData (t : RustTy)
  deriving DecidableEq, Repr

/-- Whether a field type is `Send`, following the auto-trait rules. -/
def RustTy.isSendTy : RustTy → Bool
  | .constPtrUnit => false
  | .refChannel => true
  | .threadHandle => true
  | .phantomData t => t.isSendTy

/-- The fields of `Receiver<'a, T>`: `inner: &'a Channel<T>` and
`_marker: PhantomData<*const ()>`. -/
def receiverFields : List RustTy :=
  [RustTy.refChannel, RustTy.phantomData RustTy.constPtrUnit]

/-- The fields of `Sender<'a, T>`: `inner: &'a Channel<T>` and
`waiting: Thread`. -/
def senderFields : List RustTy :=
  [RustTy.refChannel, RustTy.threadHandle]

/-- A struct is `Send` iff every field is. -/
def structIsSend (fields : List RustTy) : Bool :=
  fields.all RustTy.isSendTy

/-- Whether `Receiver` implements `Send`. -/
def receiverIsSend : Bool := structIsSend receiverFields

/-!
## Small-step semantics of one `send` racing one `recv`

Each atomic action of the source (`(*message.get()).write(msg)`,
`ready.store(true, Release)`, `waiting.unpark()`, `ready.swap(false,
Acquire)`, `thread::park()`, `assume_init_read()`) is one step.  Parking
follows the `std::thread` contract: `unpark` wakes a parked thread, or
otherwise leaves a token that makes the next `park` return immediately.
-/

/-- Program counter of the sender thread executing `Sender::send`. -/
inductive SenderPC : Type
  | start
  | wroteMsg
  | storedReady
  | done
  deriving DecidableEq, Repr

/-- Program counter of the receiver thread executing `Receiver::recv`.
`loop` = about to `swap`; `willPark` = observed `false`, about to `park`;
`parked` = blocked inside `park`; `readMsg` = observed `true`, about to
`assume_init_read`; `done` = returned. -/
inductive RecvPC : Type
  | loop
  | willPark
  | parked
  | readMsg
  | done
  deriving DecidableEq, Repr

/-- Thread identifiers of the two racing threads. -/
inductive Tid : Type
  | s
  | r
  deriving DecidableEq, Repr

/-- One atomic action, as recorded in the event log. -/
inductive Event (T : Type) : Type
  | writeMsg (v : T)
  | storeReady (b : Bool) (ord : MemOrder)
  | unpark
  | swapReady (old : Bool) (ord : MemOrder)
  | park
  | readMsgOut
  deriving DecidableEq, Repr

/-- Global state: the shared channel, both program counters, the park
token of the receiver thread, the receiver's return value once it has
returned, and the log of atomic actions taken so far. -/
structure Sys (T : Type) where
  chan : Channel T
  spc : SenderPC
  rpc : RecvPC
  token : Bool
  result : Option T
  log : List (Tid × Event T)
  deriving DecidableEq, Repr

/-- One step of the sender thread (`Sender::send(msg)`), or `none` if it
has finished.  The final step is `self.waiting.unpark()`: it wakes the
receiver if it is parked, and otherwise leaves the park token. -/
def stepS {T : Type} (msg : T) (σ : Sys T) : Option (Sys T) :=
  match σ.spc with
  | .start =>
      some { σ with
        chan := { σ.chan with message := some msg },
        spc := .wroteMsg,
        log := σ.log ++ [(Tid.s, Event.writeMsg msg)] }
  | .wroteMsg =>
      some { σ with
        chan := { σ.chan with ready := true },
        spc := .storedReady,
        log := σ.log ++ [(Tid.s, Event.storeReady true MemOrder.release)] }
  | .storedReady =>
      some (if σ.rpc = RecvPC.parked then
        { σ with
          rpc := .loop,
          spc := .done,
          log := σ.log ++ [(Tid.s, Event.unpark)] }
      else
        { σ with
          token := true,
          spc := .done,
          log := σ.log ++ [(Tid.s, Event.unpark)] })
  | .done => none

/-- One step of the receiver thread (`Receiver::recv`), or `none` if it is
blocked in `park` or has finished.  `loop` performs the atomic
`ready.swap(false, Acquire)`; `willPark` performs `thread::park()`, which
consumes a pending token or blocks; `readMsg` performs
`assume_init_read()`. -/
def stepR {T : Type} (σ : Sys T) : Option (Sys T) :=
  match σ.rpc with
  | .loop =>
      some { σ with
        chan := { σ.chan with ready := false },
        rpc := if σ.chan.ready then RecvPC.readMsg else RecvPC.willPark,
        log := σ.log ++ [(Tid.r, Event.swapReady σ.chan.ready MemOrder.acquire)] }
  | .willPark =>
      some (if σ.token then
        { σ with
          token := false,
          rpc := .loop,
          log := σ.log ++ [(Tid.r, Event.park)] }
      else
        { σ with
          rpc := .parked,
          log := σ.log ++ [(Tid.r, Event.park)] })
  | .parked => none
  | .readMsg =>
      some { σ with
        result := σ.chan.message,
        rpc := .done,
        log := σ.log ++ [(Tid.r, Event.readMsgOut)] }
  | .done => none

/-- Run the scheduled thread for one step; a thread that cannot step
(finished, or blocked in `park`) leaves the state unchanged. -/
def stepOr {T : Type} (msg : T) (σ : Sys T) : Tid → Sys T
  | .s => (stepS msg σ).getD σ
  | .r => (stepR σ).getD σ

/-- The state right after `split`: a fresh channel, the sender about to
run `send`, the receiver about to run `recv`, no park token pending. -/
def init (T : Type) : Sys T :=
  { chan := Channel.new T, spc := .start, rpc := .loop,
    token := false, result := none, log := [] }

/-- Execute a schedule (an arbitrary interleaving of the two threads). -/
def run {T : Type} (msg : T) (sched : List Tid) : Sys T :=
  sched.foldl (stepOr msg) (init T)

/-- A state is reachable if some interleaving produces it. -/
def Reachable {T : Type} (msg : T) (σ : Sys T) : Prop :=
  ∃ sched : List Tid, run msg sched = σ

/-- Run only the receiver thread for `n` further steps. -/
def runR {T : Type} (σ : Sys T) : Nat → Sys T
  | 0 => σ
  | n + 1 => runR ((stepR σ).getD σ) n

/-!
## Event-log projections and trace shapes
-/

/-- The subsequence of events performed by the sender thread. -/
def senderEvents {T : Type} (log : List (Tid × Event T)) : List (Event T) :=
  log.filterMap (fun p => if p.1 = Tid.s then some p.2 else none)

/-- The subsequence of events performed by the receiver thread. -/
def recvEvents {T : Type} (log : List (Tid × Event T)) : List (Event T) :=
  log.filterMap (fun p => if p.1 = Tid.r then some p.2 else none)

/-- The complete straight-line trace of `Sender::send(msg)`: write the
message, store `true` into `ready` with `Release`, unpark. -/
def sendTrace {T : Type} (msg : T) : List (Event T) :=
  [Event.writeMsg msg, Event.storeReady true MemOrder.release, Event.unpark]

/-- How many of the three send actions a sender at this pc has performed. -/
def sIdx : SenderPC → Nat
  | .start => 0
  | .wroteMsg => 1
  | .storedReady => 2
  | .done => 3

/-- `n` completed iterations of the receiver's wait loop: each one is an
acquire `swap` that observed `false`, followed by a `park` call. -/
def parkLoops (T : Type) : Nat → List (Event T)
  | 0 => []
  | n + 1 =>
      parkLoops T n ++ [Event.swapReady false MemOrder.acquire, Event.park]

/-- The complete trace of a `Receiver::recv` that looped `n` times before
the acquire `swap` observed `true` and the value was moved out. -/
def recvDoneTrace (T : Type) (n : Nat) : List (Event T) :=
  parkLoops T n ++ [Event.swapReady true MemOrder.acquire, Event.readMsgOut]

/-- Checks that a (possibly partial) receiver trace follows the `recv`
loop: each acquire `swap` observing `false` is followed by a `park` and a
retry, and the value is moved out only right after a `swap` observed
`true`. -/
def recvTraceOK {T : Type} : List (Event T) → Bool
  | [] => true
  | [Event.swapReady false MemOrder.acquire] => true
  | Event.swapReady false MemOrder.acquire :: Event.park :: rest =>
      recvTraceOK rest
  | [Event.swapReady true MemOrder.acquire] => true
  | [Event.swapReady true MemOrder.acquire, Event.readMsgOut] => true
  | _ => false

/-- Is this event a write of the message slot? -/
def isWriteEvent {T : Type} : Event T → Bool
  | .writeMsg _ => true
  | _ => false

/-- Is this event a move-out read of the message slot? -/
def isReadEvent {T : Type} : Event T → Bool
  | .readMsgOut => true
  | _ => false

/-- Number of slot writes in a log. -/
def countWrites {T : Type} (log : List (Tid × Event T)) : Nat :=
  log.countP (fun p => isWriteEvent p.2)

/-- Number of slot move-out reads in a log. -/
def countReads {T : Type} (log : List (Tid × Event T)) : Nat :=
  log.countP (fun p => isReadEvent p.2)

/-- The receiver trace shape determined by the receiver's pc. -/
def recvShape {T : Type} (rpc : RecvPC) (tr : List (Event T)) : Prop :=
  match rpc with
  | .loop => ∃ n, tr = parkLoops T n
  | .willPark => ∃ n, tr = parkLoops T n ++ [Event.swapReady false MemOrder.acquire]
  | .parked => ∃ n, tr = parkLoops T n
  | .readMsg => ∃ n, tr = parkLoops T n ++ [Event.swapReady true MemOrder.acquire]
  | .done => ∃ n, tr = recvDoneTrace T n

/-!
## The checked tier

The spec describes a checked primitive (a misuse-guard flag exchanged at
the start of `send`, explicit errors instead of UB).  No such code exists
under `src/`; it is modelled here from the spec's words alone.
-/

/-- Modelled from the spec: the checked-tier channel state — the message
slot and readiness flag as in `Channel`, plus the misuse-guard flag that
detects a second `send` (spec §3, §4.3).  The checked primitive itself is
missing from `src/`. -/
structure CheckedChannel (T : Type) where
  message : Option T
  ready : Bool
  inUse : Bool
  deriving DecidableEq, Repr

/-- Modelled from the spec: the "channel already used" error of the checked
tier (spec §7). -/
inductive DoubleSendError : Type
  | doubleSend
  deriving DecidableEq, Repr

/-- Modelled from the spec: the "no message available" error of the checked
tier (spec §7). -/
inductive NotReadyError : Type
  | notReady
  deriving DecidableEq, Repr

/-- Modelled from the spec: checked-tier `send`, missing from `src/`.  It
exchanges (reads and sets) the misuse-guard; if the guard was already set
it fails with `DoubleSendError` without touching the slot, otherwise it
writes the value and publishes readiness.  The returned state is the
channel after the call; the error, if any, is returned synchronously. -/
def checkedSend {T : Type} (c : CheckedChannel T) (v : T) :
    CheckedChannel T × Option DoubleSendError :=
  if c.inUse then (c, some DoubleSendError.doubleSend)
  else ({ message := some v, ready := true, inUse := true }, none)

/-- Modelled from the spec: checked-tier `receive`, missing from `src/`.
It checks the readiness flag with acquire ordering; if the flag is false
it fails with `NotReadyError` synchronously and without retrying,
otherwise it clears the flag and moves the value out.  (The inner `none`
branch is unreachable under the invariant that a set readiness flag
implies a written slot.) -/
def checkedRecv {T : Type} (c : CheckedChannel T) :
    CheckedChannel T × Except NotReadyError T :=
  if c.ready then
    match c.message with
    | some v => ({ c with ready := false }, Except.ok v)
    | none => ({ c with ready := false }, Except.error NotReadyError.notReady)
  else (c, Except.error NotReadyError.notReady)

/-!
## The inductive system invariant
-/

/-- The master invariant of the racing `send`/`recv` pair: it holds in the
initial state and is preserved by every step of either thread, and every
claim about the system is extracted from it. -/
structure Inv {T : Type} (msg : T) (σ : Sys T) : Prop where
  msgWritten : σ.spc ≠ SenderPC.start → σ.chan.message = some msg
  readyMsg : σ.chan.ready = true → σ.chan.message = some msg
  readMsgInv : σ.rpc = RecvPC.readMsg → σ.chan.message = some msg
  doneResult : σ.rpc = RecvPC.done → σ.result = some msg
  readyAfterPub : (σ.spc = SenderPC.storedReady ∨ σ.spc = SenderPC.done) →
      (σ.chan.ready = true ∨ σ.rpc = RecvPC.readMsg ∨ σ.rpc = RecvPC.done)
  notParked : σ.spc = SenderPC.done → σ.rpc ≠ RecvPC.parked
  tokenAtPark : σ.spc = SenderPC.done → σ.rpc = RecvPC.willPark → σ.token = true
  sTrace : senderEvents σ.log = (sendTrace msg).take (sIdx σ.spc)
  rTrace : recvShape σ.rpc (recvEvents σ.log)
  wCount : countWrites σ.log = if σ.spc = SenderPC.start then 0 else 1
  rCount : countReads σ.log = if σ.rpc = RecvPC.done then 1 else 0

theorem senderEvents_append {T : Type} (log : List (Tid × Event T)) (t : Tid)
    (e : Event T) :
    senderEvents (log ++ [(t, e)]) =
      senderEvents log ++ if t = Tid.s then [e] else [] := by
  cases t <;> simp [senderEvents, List.filterMap_append]

theorem recvEvents_append {T : Type} (log : List (Tid × Event T)) (t : Tid)
    (e : Event T) :
    recvEvents (log ++ [(t, e)]) =
      recvEvents log ++ if t = Tid.r then [e] else [] := by
  cases t <;> simp [recvEvents, List.filterMap_append]

theorem countWrites_append {T : Type} (log : List (Tid × Event T)) (t : Tid)
    (e : Event T) :
    countWrites (log ++ [(t, e)]) =
      countWrites log + if isWriteEvent e then 1 else 0 := by
  simp [countWrites, List.countP_append, List.countP_cons]

theorem countReads_append {T : Type} (log : List (Tid × Event T)) (t : Tid)
    (e : Event T) :
    countReads (log ++ [(t, e)]) =
      countReads log + if isReadEvent e then 1 else 0 := by
  simp [countReads, List.countP_append, List.countP_cons]

theorem inv_init {T : Type} (msg : T) : Inv msg (init T) := by
  refine ⟨?_, ?_, ?_, ?_, ?_, ?_, ?_, ?_, ?_, ?_, ?_⟩ <;>
    simp [init, Channel.new, senderEvents, recvEvents, countWrites,
      countReads, recvShape, sIdx]
  exact ⟨0, rfl⟩

theorem inv_stepS {T : Type} {msg : T} {σ : Sys T} (h : Inv msg σ) :
    Inv msg ((stepS msg σ).getD σ) := by
  obtain ⟨h1, h2, h3, h4, h5, h6, h7, h8, h9, h10, h11⟩ := h
  cases hspc : σ.spc with
  | start =>
      simp only [stepS, hspc, Option.getD_some]
      refine ⟨?_, ?_, ?_, ?_, ?_, ?_, ?_, ?_, ?_, ?_, ?_⟩
      · simp
      · simp
      · simp
      · simpa using h4
      · simp
      · simp
      · simp
      · simp [senderEvents_append, h8, hspc, sIdx, sendTrace]
      · simpa [recvEvents_append] using h9
      · simp [countWrites_append, h10, hspc, isWriteEvent]
      · simpa [countReads_append, isReadEvent] using h11
  | wroteMsg =>
      simp only [stepS, hspc, Option.getD_some]
      refine ⟨?_, ?_, ?_, ?_, ?_, ?_, ?_, ?_, ?_, ?_, ?_⟩
      · simpa using h1 (by simp [hspc])
      · simpa using h1 (by simp [hspc])
      · simpa using fun hr => h3 hr
      · simpa using h4
      · simp
      · simp
      · simp
      · simp [senderEvents_append, h8, hspc, sIdx, sendTrace]
      · simpa [recvEvents_append] using h9
      · simpa [countWrites_append, isWriteEvent, hspc] using h10
      · simpa [countReads_append, isReadEvent] using h11
  | storedReady =>
      have hready := h5 (Or.inl hspc)
      by_cases hrpc : σ.rpc = RecvPC.parked
      · simp only [stepS, hspc, hrpc, if_pos rfl, Option.getD_some]
        have hready' : σ.chan.ready = true := by
          rcases hready with hh | hh | hh
          · exact hh
          · exact absurd hh (by simp [hrpc])
          · exact absurd hh (by simp [hrpc])
        refine ⟨?_, ?_, ?_, ?_, ?_, ?_, ?_, ?_, ?_, ?_, ?_⟩
        · simpa using h1 (by simp [hspc])
        · simpa using h2
        · simp
        · simp
        · simp [hready']
        · simp
        · simp
        · simp [senderEvents_append, h8, hspc, sIdx, sendTrace]
        · simpa [recvEvents_append, recvShape, hrpc] using h9
        · simpa [countWrites_append, isWriteEvent, hspc] using h10
        · simpa [countReads_append, isReadEvent, hrpc] using h11
      · simp only [stepS, hspc, hrpc, if_neg hrpc, Option.getD_some]
        refine ⟨?_, ?_, ?_, ?_, ?_, ?_, ?_, ?_, ?_, ?_, ?_⟩
        · simpa using h1 (by simp [hspc])
        · simpa using h2
        · simpa using fun hr => h3 hr
        · simpa using h4
        · simpa using hready
        · simpa using hrpc
        · simp
        · simp [senderEvents_append, h8, hspc, sIdx, sendTrace]
        · simpa [recvEvents_append] using h9
        · simpa [countWrites_append, isWriteEvent, hspc] using h10
        · simpa [countReads_append, isReadEvent] using h11
  | done =>
      simp only [stepS, hspc, Option.getD_none]
      exact ⟨h1, h2, h3, h4, h5, h6, h7, h8, h9, h10, h11⟩

theorem inv_stepR {T : Type} {msg : T} {σ : Sys T} (h : Inv msg σ) :
    Inv msg ((stepR σ).getD σ) := by
  obtain ⟨h1, h2, h3, h4, h5, h6, h7, h8, h9, h10, h11⟩ := h
  cases hrpc : σ.rpc with
  | loop =>
      simp only [stepR, hrpc, Option.getD_some]
      obtain ⟨n, hn⟩ := hrpc ▸ h9
      cases hready : σ.chan.ready with
      | true =>
          refine ⟨?_, ?_, ?_, ?_, ?_, ?_, ?_, ?_, ?_, ?_, ?_⟩
          · simpa using h1
          · simp
          · simpa [hready] using h2 hready
          · simp [hready]
          · simp [hready]
          · simp [hready]
          · simp [hready]
          · simpa [senderEvents_append] using h8
          · exact ⟨n, by simp [recvShape, hready, recvEvents_append, hn]⟩
          · simpa [countWrites_append, isWriteEvent] using h10
          · simpa [countReads_append, isReadEvent, hready, hrpc] using h11
      | false =>
          refine ⟨?_, ?_, ?_, ?_, ?_, ?_, ?_, ?_, ?_, ?_, ?_⟩
          · simpa using h1
          · simp
          · simp [hready]
          · simp [hready]
          · intro hs
            exact absurd (h5 hs) (by simp [hready, hrpc])
          · simp [hready]
          · intro hs
            exact absurd (h5 (Or.inr hs)) (by simp [hready, hrpc])
          · simpa [senderEvents_append] using h8
          · exact ⟨n, by simp [recvShape, hready, recvEvents_append, hn]⟩
          · simpa [countWrites_append, isWriteEvent] using h10
          · simpa [countReads_append, isReadEvent, hready, hrpc] using h11
  | willPark =>
      simp only [stepR, hrpc, Option.getD_some]
      obtain ⟨n, hn⟩ := hrpc ▸ h9
      cases htok : σ.token with
      | true =>
          simp only [if_pos rfl]
          refine ⟨?_, ?_, ?_, ?_, ?_, ?_, ?_, ?_, ?_, ?_, ?_⟩
          · simpa using h1
          · simpa using h2
          · simp
          · simp
          · intro hs
            rcases h5 hs with hh | hh | hh <;> simp_all [hrpc]
          · simp
          · simp
          · simpa [senderEvents_append] using h8
          · exact ⟨n + 1, by simp [recvShape, recvEvents_append, hn, parkLoops]⟩
          · simpa [countWrites_append, isWriteEvent] using h10
          · simpa [countReads_append, isReadEvent, hrpc] using h11
      | false =>
          have hcond : ¬ (false = true) := by simp
          rw [if_neg hcond]
          refine ⟨?_, ?_, ?_, ?_, ?_, ?_, ?_, ?_, ?_, ?_, ?_⟩
          · simpa using h1
          · simpa using h2
          · simp
          · simp
          · intro hs
            rcases h5 hs with hh | hh | hh <;> simp_all [hrpc]
          · intro hs
            exact absurd (h7 hs hrpc) (by simp [htok])
          · simp
          · simpa [senderEvents_append] using h8
          · exact ⟨n + 1, by simp [recvShape, recvEvents_append, hn, parkLoops]⟩
          · simpa [countWrites_append, isWriteEvent] using h10
          · simpa [countReads_append, isReadEvent, hrpc] using h11
  | parked =>
      simp only [stepR, hrpc, Option.getD_none]
      exact ⟨h1, h2, h3, h4, h5, h6, h7, h8, h9, h10, h11⟩
  | readMsg =>
      simp only [stepR, hrpc, Option.getD_some]
      obtain ⟨n, hn⟩ := hrpc ▸ h9
      refine ⟨?_, ?_, ?_, ?_, ?_, ?_, ?_, ?_, ?_, ?_, ?_⟩
      · simpa using h1
      · simpa using h2
      · simp
      · simpa using h3 hrpc
      · simp
      · simp
      · simp
      · simpa [senderEvents_append] using h8
      · exact ⟨n, by simp [recvShape, recvEvents_append, hn, recvDoneTrace]⟩
      · simpa [countWrites_append, isWriteEvent] using h10
      · simp [countReads_append, isReadEvent, hrpc ▸ h11, hrpc]
  | done =>
      simp only [stepR, hrpc, Option.getD_none]
      exact ⟨h1, h2, h3, h4, h5, h6, h7, h8, h9, h10, h11⟩

theorem inv_stepOr {T : Type} {msg : T} {σ : Sys T} (h : Inv msg σ) (t : Tid) :
    Inv msg (stepOr msg σ t) := by
  cases t
  · exact inv_stepS h
  · exact inv_stepR h

theorem inv_foldl {T : Type} {msg : T} {σ : Sys T} (h : Inv msg σ)
    (sched : List Tid) : Inv msg (sched.foldl (stepOr msg) σ) := by
  induction sched generalizing σ with
  | nil => exact h
  | cons t ts ih => exact ih (inv_stepOr h t)

theorem inv_reachable {T : Type} {msg : T} {σ : Sys T}
    (h : Reachable msg σ) : Inv msg σ := by
  obtain ⟨sched, rfl⟩ := h
  exact inv_foldl (inv_init msg) sched

theorem parkLoops_cons {T : Type} (n : Nat) :
    parkLoops T (n + 1) =
      Event.swapReady false MemOrder.acquire :: Event.park :: parkLoops T n := by
  induction n with
  | zero => rfl
  | succ n ih =>
      show parkLoops T (n + 1) ++
            [Event.swapReady false MemOrder.acquire, Event.park] =
          Event.swapReady false MemOrder.acquire :: Event.park ::
            (parkLoops T n ++ [Event.swapReady false MemOrder.acquire, Event.park])
      rw [ih]
      simp

theorem recvTraceOK_parkLoops_append {T : Type} (n : Nat)
    (suffix : List (Event T)) (hs : recvTraceOK suffix = true) :
    recvTraceOK (parkLoops T n ++ suffix) = true := by
  induction n with
  | zero => simpa [parkLoops] using hs
  | succ n ih =>
      rw [parkLoops_cons]
      simpa [recvTraceOK] using ih

/-!
## The claims
-/

/-- **C1** Round-trip identity: in every interleaving in which the sender's
`send(v)` has completed and the receiver's `recv()` has returned, the value
returned by `recv()` is exactly `v` — no corruption, no truncation. -/
theorem send_recv_roundtrip {T : Type} (msg : T) (σ : Sys T)
    (h : Reachable msg σ) (hs : σ.spc = SenderPC.done)
    (hr : σ.rpc = RecvPC.done) : σ.result = some msg := by
  have _hs := hs
  exact (inv_reachable h).doneResult hr

/-- Witness for C1 at a concrete input. -/
theorem send_recv_roundtrip_witness :
    (run 42 [Tid.s, Tid.s, Tid.s, Tid.r, Tid.r]).result = some 42 :=
  send_recv_roundtrip 42 (run 42 [Tid.s, Tid.s, Tid.s, Tid.r, Tid.r])
    ⟨[Tid.s, Tid.s, Tid.s, Tid.r, Tid.r], rfl⟩ (by decide) (by decide)

/-- **C2** Send operation order: `Sender::send(self, msg)` performs exactly
these steps in this order — write `msg` into the slot, store `true` into
the readiness flag with release ordering, then unpark the waiting thread:
in every reachable state the sender's event trace is a prefix of that
three-step trace, and once `send` has completed it is exactly it. -/
theorem send_performs_write_publish_unpark {T : Type} (msg : T) (σ : Sys T)
    (h : Reachable msg σ) :
    (∃ k, senderEvents σ.log = (sendTrace msg).take k) ∧
      (σ.spc = SenderPC.done →
        senderEvents σ.log =
          [Event.writeMsg msg, Event.storeReady true MemOrder.release,
            Event.unpark]) := by
  have inv := inv_reachable h
  constructor
  · exact ⟨sIdx σ.spc, inv.sTrace⟩
  · intro hs
    have htr := inv.sTrace
    rw [hs] at htr
    simpa [sIdx, sendTrace] using htr

/-- Witness for C2 at a concrete input. -/
theorem send_performs_write_publish_unpark_witness :
    senderEvents (run 7 [Tid.s, Tid.s, Tid.s]).log =
      [Event.writeMsg 7, Event.storeReady true MemOrder.release,
        Event.unpark] :=
  (send_performs_write_publish_unpark 7 (run 7 [Tid.s, Tid.s, Tid.s])
    ⟨[Tid.s, Tid.s, Tid.s], rfl⟩).2 (by decide)

/-- **C3** Receive loop algorithm: in every reachable state the receiver's
event trace follows the `recv` loop — repeated atomic check-and-clear of
the readiness flag (`swap` to `false` with acquire ordering), a `park`
after every check that observed `false` followed by a retry, and the value
moved out of the slot only right after a check-and-clear observed `true`;
when `recv` has returned, the trace is exactly `n` false-check/park
iterations followed by a true check-and-clear and the read. -/
theorem recv_loop_checks_parks_reads {T : Type} (msg : T) (σ : Sys T)
    (h : Reachable msg σ) :
    recvTraceOK (recvEvents σ.log) = true ∧
      (σ.rpc = RecvPC.done → ∃ n, recvEvents σ.log = recvDoneTrace T n) := by
  have inv := inv_reachable h
  have tr := inv.rTrace
  constructor
  · cases hrpc : σ.rpc <;> rw [hrpc] at tr <;>
      simp only [recvShape] at tr <;> obtain ⟨n, hn⟩ := tr <;> rw [hn]
    · simpa using recvTraceOK_parkLoops_append n [] rfl
    · exact recvTraceOK_parkLoops_append n _ rfl
    · simpa using recvTraceOK_parkLoops_append n [] rfl
    · exact recvTraceOK_parkLoops_append n _ rfl
    · exact recvTraceOK_parkLoops_append n _ rfl
  · intro hr
    rw [hr] at tr
    simpa only [recvShape] using tr

/-- Witness for C3 at a concrete input (one park iteration, then success). -/
theorem recv_loop_checks_parks_reads_witness :
    recvTraceOK
        (recvEvents
          (run 4 [Tid.r, Tid.r, Tid.s, Tid.s, Tid.s, Tid.r, Tid.r]).log) =
        true ∧
      ((run 4 [Tid.r, Tid.r, Tid.s, Tid.s, Tid.s, Tid.r, Tid.r]).rpc =
          RecvPC.done →
        ∃ n,
          recvEvents
              (run 4 [Tid.r, Tid.r, Tid.s, Tid.s, Tid.s, Tid.r, Tid.r]).log =
            recvDoneTrace Nat n) :=
  recv_loop_checks_parks_reads 4
    (run 4 [Tid.r, Tid.r, Tid.s, Tid.s, Tid.s, Tid.r, Tid.r])
    ⟨[Tid.r, Tid.r, Tid.s, Tid.s, Tid.s, Tid.r, Tid.r], rfl⟩

/-- **C4** Split resets the channel: for every channel — including one
holding a previously written value or a set readiness flag — `split` first
resets the channel to the empty state (readiness flag `false`, slot
uninitialized) and returns exactly one `Sender` and one `Receiver`, both
referring to that same channel. -/
theorem split_resets_and_pairs {T : Type} (h : Heap T) (r : ChanRef)
    (current : ThreadId) :
    (Channel.split h r current).1 r = Channel.new T ∧
      ((Channel.split h r current).1 r).ready = false ∧
      ((Channel.split h r current).1 r).message = none ∧
      (Channel.split h r current).2.1.inner = r ∧
      (Channel.split h r current).2.2.1.inner = r := by
  refine ⟨?_, ?_, ?_, rfl, rfl⟩ <;>
    simp [Channel.split, updateHeap, Channel.new]

/-- **C5** Single-use via consumption: over a channel lifetime (between
splits), at most one write to the slot and at most one move-out read of
the slot occur, in every interleaving.  (The `send`/`recv` programs of the
model each contain their operation exactly once, embedding the fact that
`send` consumes the `Sender` and `recv` consumes the `Receiver`.) -/
theorem slot_written_once_read_once {T : Type} (msg : T) (σ : Sys T)
    (h : Reachable msg σ) :
    countWrites σ.log ≤ 1 ∧ countReads σ.log ≤ 1 := by
  have inv := inv_reachable h
  constructor
  · rw [inv.wCount]
    split <;> norm_num
  · rw [inv.rCount]
    split <;> norm_num

/-- Witness for C5 at a concrete input. -/
theorem slot_written_once_read_once_witness :
    countWrites (run 3 [Tid.s, Tid.s, Tid.s, Tid.r, Tid.r]).log ≤ 1 ∧
      countReads (run 3 [Tid.s, Tid.s, Tid.s, Tid.r, Tid.r]).log ≤ 1 :=
  slot_written_once_read_once 3 (run 3 [Tid.s, Tid.s, Tid.s, Tid.r, Tid.r])
    ⟨[Tid.s, Tid.s, Tid.s, Tid.r, Tid.r], rfl⟩

/-- **C6** Drop cleanup: if a channel is destroyed while the readiness flag
is set (a value was written but never received), the stored value is
destructed exactly once by the channel's destructor; if the flag is not
set, the destructor destructs nothing. -/
theorem drop_destructs_iff_ready {T : Type} (c : Channel T) (v : T) :
    (c.ready = true → c.message = some v → c.dropRun = some [v]) ∧
      (c.ready = false → c.dropRun = some []) := by
  constructor
  · intro hr hm
    simp [Channel.dropRun, hr, hm]
  · intro hr
    simp [Channel.dropRun, hr]

/-- Witness for C6 at concrete inputs. -/
theorem drop_destructs_iff_ready_witness :
    Channel.dropRun { message := some 5, ready := true } = some [5] ∧
      Channel.dropRun { message := some 5, ready := false } =
        some ([] : List Nat) :=
  ⟨(drop_destructs_iff_ready { message := some 5, ready := true } 5).1 rfl rfl,
    (drop_destructs_iff_ready { message := some 5, ready := false } 5).2 rfl⟩

/-- **C7** Blocking receive progress despite the wake/suspend race: from
any reachable state in which the sender has completed `send` — whatever
the interleaving before it, including a receiver that started waiting
first and an arbitrary delay between the readiness-publish and the unpark
— the receiver is never blocked forever: at most three further receiver
steps make `recv` return the sent value.  In particular a wake delivered
before the corresponding park (the park token) does not cause `recv` to
block, because `recv` re-checks the readiness flag before every park. -/
theorem recv_completes_after_send {T : Type} (msg : T) (σ : Sys T)
    (h : Reachable msg σ) (hs : σ.spc = SenderPC.done) :
    ∃ n, n ≤ 3 ∧ (runR σ n).rpc = RecvPC.done ∧
      (runR σ n).result = some msg := by
  have inv := inv_reachable h
  cases hrpc : σ.rpc with
  | loop =>
      have hready : σ.chan.ready = true := by
        rcases inv.readyAfterPub (Or.inr hs) with hh | hh | hh
        · exact hh
        · exact absurd hh (by simp [hrpc])
        · exact absurd hh (by simp [hrpc])
      have hmsg := inv.readyMsg hready
      refine ⟨2, by norm_num, ?_, ?_⟩ <;>
        simp [runR, stepR, hrpc, hready, hmsg]
  | willPark =>
      have htok := inv.tokenAtPark hs hrpc
      have hready : σ.chan.ready = true := by
        rcases inv.readyAfterPub (Or.inr hs) with hh | hh | hh
        · exact hh
        · exact absurd hh (by simp [hrpc])
        · exact absurd hh (by simp [hrpc])
      have hmsg := inv.readyMsg hready
      refine ⟨3, by norm_num, ?_, ?_⟩ <;>
        simp [runR, stepR, hrpc, htok, hready, hmsg]
  | parked => exact absurd hrpc (inv.notParked hs)
  | readMsg =>
      have hmsg := inv.readMsgInv hrpc
      refine ⟨1, by norm_num, ?_, ?_⟩ <;>
        simp [runR, stepR, hrpc, hmsg]
  | done =>
      refine ⟨0, by norm_num, hrpc, inv.doneResult hrpc⟩

/-- Witness for C7 at a concrete input: the receiver checks, parks, the
sender then writes, publishes and unparks; the woken receiver finishes. -/
theorem recv_completes_after_send_witness :
    ∃ n, n ≤ 3 ∧
      (runR (run 5 [Tid.r, Tid.r, Tid.s, Tid.s, Tid.s]) n).rpc =
        RecvPC.done ∧
      (runR (run 5 [Tid.r, Tid.r, Tid.s, Tid.s, Tid.s]) n).result = some 5 :=
  recv_completes_after_send 5 (run 5 [Tid.r, Tid.r, Tid.s, Tid.s, Tid.s])
    ⟨[Tid.r, Tid.r, Tid.s, Tid.s, Tid.s], rfl⟩ (by decide)

/-- **C8** Waiting-thread capture and receiver thread affinity: `split`
stores in the returned `Sender` the identity of the thread that calls
`split` (the thread that will wait in `recv`), and the returned `Receiver`
is not `Send` — it cannot be moved to a different thread — because of its
`PhantomData<*const ()>` field. -/
theorem split_records_thread_and_receiver_pinned {T : Type} (h : Heap T)
    (r : ChanRef) (current : ThreadId) :
    (Channel.split h r current).2.1.waiting = current ∧
      receiverIsSend = false :=
  ⟨rfl, rfl⟩

/-- **C9** Checked-tier error reporting (spec-modelled; the checked tier is
absent from `src/`): the checked `send` returns `DoubleSendError` without
modifying the channel when the misuse-guard flag was already set, and the
checked `receive` returns `NotReadyError` without modifying the channel
when the acquire-checked readiness flag is false; both failures are the
synchronous return value of a single non-looping call, never retried. -/
theorem checked_tier_error_reporting {T : Type} (c : CheckedChannel T)
    (v : T) :
    (c.inUse = true → checkedSend c v = (c, some DoubleSendError.doubleSend)) ∧
      (c.ready = false →
        checkedRecv c = (c, Except.error NotReadyError.notReady)) := by
  constructor
  · intro hg
    simp [checkedSend, hg]
  · intro hr
    simp [checkedRecv, hr]

/-- The checked channel used by the C9 witness: guard already set. -/
def usedChecked : CheckedChannel Nat :=
  { message := some 1, ready := true, inUse := true }

/-- The checked channel used by the C9 witness: nothing sent yet. -/
def freshChecked : CheckedChannel Nat :=
  { message := none, ready := false, inUse := false }

/-- Witness for C9 at concrete inputs. -/
theorem checked_tier_error_reporting_witness :
    checkedSend usedChecked 2 =
        (usedChecked, some DoubleSendError.doubleSend) ∧
      checkedRecv freshChecked =
        (freshChecked, Except.error NotReadyError.notReady) :=
  ⟨(checked_tier_error_reporting usedChecked 2).1 rfl,
    (checked_tier_error_reporting freshChecked 2).2 rfl⟩

/-- **C10** Re-split destructs an abandoned value: calling `split` on a
channel whose readiness flag is still set (a value was sent but never
received) runs the channel's destructor through the reset assignment
`*self = Self::new()`, so the abandoned value is destructed exactly once
at re-split time and is not leaked. -/
theorem resplit_destructs_abandoned_value {T : Type} (h : Heap T)
    (r : ChanRef) (current : ThreadId) (v : T) (hr : (h r).ready = true)
    (hm : (h r).message = some v) :
    (Channel.split h r current).2.2.2 = some [v] := by
  simp [Channel.split, Channel.dropRun, hr, hm]

/-- Witness for C10 at a concrete input. -/
theorem resplit_destructs_abandoned_value_witness :
    (Channel.split (fun _ => { message := some 9, ready := true }) 0 0).2.2.2 =
      some [9] :=
  resplit_destructs_abandoned_value
    (fun _ => { message := some 9, ready := true }) 0 0 9 rfl rfl

end OneShot
